import Mathlib

/-!
Verification development for the visionbi_monitor ETL pipeline.

The definitions below are shallow embeddings of the Python sources:
- src/PowerBIDataTransform/transform_powerbi.py (bronze-to-silver flattening
  and shaping engine),
- src/load_powerbi_data/load_powerbi.py (silver-to-gold incremental merge),
- src/modules/powerbi_api.py (paginated workspace retrieval),
- src/get_powerbi_workspaces/modules/custom_logger.py (in-memory log buffer).

Python dicts are embedded as association lists (insertion order = list
order, which matches Python dict iteration order); exceptions are embedded
as Except String; the pandas DataFrame operations used by the sources
(empty test, isin filter, concat, drop_duplicates) are embedded as the
corresponding list operations on lists of rows.
-/

set_option autoImplicit false

namespace VisionBI

/-! ## JSON-shaped data model for the workspace-scan input

The scan payload (spec section 3) is a list of workspace records.  A
workspace record is a dict whose values are either scalars or lists of
child dicts; a child object is a dict whose values are scalars or a nested
list of user dicts; user dicts hold scalar fields.  Scalars are strings,
integers or booleans (the code only ever distinguishes str from non-str
and list from non-list). -/

inductive LeafVal where
  | str (s : String)
  | intV (n : Int)
  | boolV (b : Bool)
deriving DecidableEq

/-- A nested user dict (inside a child object): dynamically named scalar fields. -/
abbrev NestedUser := List (String × LeafVal)

/-- A value of a field of a child object: a scalar, or a nested list of user dicts. -/
inductive ObjField where
  | leaf (v : LeafVal)
  | nested (us : List NestedUser)
deriving DecidableEq

/-- A child object of a workspace (report, dataset, ...): a dict. -/
abbrev ObjRec := List (String × ObjField)

/-- A value of a workspace field: a scalar, or a list of record dicts
(Python only tests isinstance(value, list); which branch handles the list
is decided by the key name alone, exactly as in the source). -/
inductive WsVal where
  | leaf (v : LeafVal)
  | lst (os : List ObjRec)
deriving DecidableEq

/-- A workspace record: a dict. -/
abbrev WorkspaceRec := List (String × WsVal)

/-- A Python value as it ends up inside an appended row: rows built by the
transform hold whatever values the dict lookups returned, so this type
unifies the value spaces of the three dict levels. -/
inductive RowVal where
  | leaf (v : LeafVal)
  | nested (us : List NestedUser)
  | lst (os : List ObjRec)
deriving DecidableEq

def ObjField.toRow : ObjField → RowVal
  | .leaf v => .leaf v
  | .nested us => .nested us

def WsVal.toRow : WsVal → RowVal
  | .leaf v => .leaf v
  | .lst os => .lst os

/-- A user-access row [userId, objectId, accessRight, objectType]
(transform_powerbi.py lines 11 and 47). -/
abbrev AccessRow := RowVal × RowVal × RowVal × String

/-- An element of the untyped Python users list: process_workspace_users
appends user dicts to it, while fill_dimension_table (passing users where
fill_user_table expects user_access) appends 4-element access rows to it. -/
inductive UserEntry where
  | urec (u : ObjRec)
  | row (r : AccessRow)
deriving DecidableEq

/-- A dimension row: the string-valued fields of a child object
(transform_powerbi.py line 29). -/
abbrev DimRow := List (String × String)

/-- A workspace-content row [workspaceId, objectId, objectType]
(transform_powerbi.py line 35). -/
abbrev ContentRow := RowVal × RowVal × String

/-- The four mutable collections built by the flattening pass
(transform_powerbi.py lines 73-76). -/
structure FlattenState where
  user_access : List AccessRow
  users : List UserEntry
  workspace_content : List ContentRow
  all_data : List (String × List DimRow)
deriving DecidableEq

/-- Python dict lookup d[k] / d.get(k): first binding of the key. -/
def lookupKey {β : Type} (k : String) (r : List (String × β)) : Option β :=
  (r.find? (fun kv => kv.1 == k)).map (fun kv => kv.2)

/-- Python substring test: pat in s. -/
def strContains (s pat : String) : Bool :=
  (List.range (s.data.length + 1)).any (fun i => pat.data.isPrefixOf (s.data.drop i))

/-- Python str.rstrip with argument s: remove every trailing s character
(transform_powerbi.py line 56). -/
def rstripS (s : String) : String :=
  String.mk ((s.data.reverse.dropWhile (fun c => c == 's')).reverse)

/-- The dynamic access-right field discovery of transform_powerbi.py lines
10 and 46: the first key of the user dict whose name contains the substring
UserAccessRight, together with its value (the comprehension takes the first
matching key and then reads it back with user.get; on an ordered dict with
unique keys that is exactly the first matching binding). -/
def findAccessField (u : NestedUser) : Option (String × LeafVal) :=
  u.find? (fun kv => strContains kv.1 "UserAccessRight")

/-- fill_user_table (transform_powerbi.py lines 7-11).  The Python
function appends to whatever list object its first argument is bound to;
the elaborated inj parameter records how an appended access row is viewed
as an element of that list (its only caller passes the users list, whose
elements are UserEntry).  A user record without an access-right key raises
IndexError from the empty-comprehension subscript; a user record without
graphId raises KeyError. -/
def fill_user_table {ε : Type} (inj : AccessRow → ε)
    (object_type : String) (object_id : RowVal)
    (list_of_users : List NestedUser) (user_access : List ε) :
    Except String (List ε) :=
  match list_of_users with
  | [] => .ok user_access
  | user :: rest =>
    match findAccessField user with
    | none => .error "IndexError: list index out of range"
    | some kv =>
      match lookupKey "graphId" user with
      | none => .error "KeyError: graphId"
      | some gid =>
        fill_user_table inj object_type object_id rest
          (user_access ++ [inj (RowVal.leaf gid, object_id, RowVal.leaf kv.2, object_type)])

/-- object_data.get of the key users with default empty list
(transform_powerbi.py line 27); a scalar under the users key would make the
subsequent Python iteration fail, embedded as an error. -/
def getObjUsers (object_data : ObjRec) : Except String (List NestedUser) :=
  match lookupKey "users" object_data with
  | none => .ok []
  | some (.nested us) => .ok us
  | some (.leaf _) => .error "TypeError: users field is not iterable"

/-- Identity resolution of transform_powerbi.py lines 22-25: try
object_data of id, on KeyError fall back to objectId, and raise if neither
key is present. -/
def resolveElementId (object_data : ObjRec) : Except String ObjField :=
  match lookupKey "id" object_data with
  | some v => .ok v
  | none =>
    match lookupKey "objectId" object_data with
    | some v => .ok v
    | none => .error "KeyError: objectId"

/-- The all_data update of transform_powerbi.py lines 30-33: append to the
existing list of the object type, or start a new key (Python inserts new
dict keys at the end). -/
def appendDimRow (all_data : List (String × List DimRow)) (object_type : String)
    (dimension_data : DimRow) : List (String × List DimRow) :=
  if (lookupKey object_type all_data).isSome then
    all_data.map (fun kv =>
      if kv.1 == object_type then (kv.1, kv.2 ++ [dimension_data]) else kv)
  else
    all_data ++ [(object_type, [dimension_data])]

/-- fill_dimension_table (transform_powerbi.py lines 13-35).  Note that
the source passes the users collection to fill_user_table in the position
of its user_access parameter, so nested-user access rows are appended to
users, not to user_access. -/
def fill_dimension_table (st : FlattenState) (workspace_id : RowVal)
    (object_type : String) (object_data : ObjRec) : Except String FlattenState :=
  match resolveElementId object_data with
  | .error e => .error e
  | .ok element_id =>
    match getObjUsers object_data with
    | .error e => .error e
    | .ok nested_users =>
      match fill_user_table UserEntry.row object_type element_id.toRow nested_users st.users with
      | .error e => .error e
      | .ok users' =>
        let dimension_data : DimRow :=
          object_data.filterMap (fun kv =>
            match kv.2 with
            | .leaf (.str s) => some (kv.1, s)
            | _ => none)
        Except.ok
          { st with
            users := users'
            all_data := appendDimRow st.all_data object_type dimension_data
            workspace_content :=
              st.workspace_content ++ [(workspace_id, element_id.toRow, object_type)] }

/-- Lookup of a workspace key expected to hold a list of dicts (the
subscript workspace of users in process_workspace_users). -/
def getWsList (k : String) (workspace : WorkspaceRec) : Except String (List ObjRec) :=
  match lookupKey k workspace with
  | some (.lst os) => .ok os
  | some (.leaf _) => .error "TypeError: value is not iterable"
  | none => .error ("KeyError: " ++ k)

/-- The per-user body of process_workspace_users (transform_powerbi.py
lines 40-47): first append the projected user dict (graphId mandatory,
emailAddress and displayName defaulted to the empty string), then discover
the access-right field and append the workspace-level access row. -/
def process_users_loop (workspace_id : RowVal) (st : FlattenState) :
    List ObjRec → Except String FlattenState
  | [] => .ok st
  | user :: rest =>
    match lookupKey "graphId" user with
    | none => .error "KeyError: graphId"
    | some gid =>
      let entry : ObjRec :=
        [("graphId", gid),
         ("emailAddress", (lookupKey "emailAddress" user).getD (ObjField.leaf (LeafVal.str ""))),
         ("displayName", (lookupKey "displayName" user).getD (ObjField.leaf (LeafVal.str "")))]
      let st1 : FlattenState := { st with users := st.users ++ [UserEntry.urec entry] }
      match user.find? (fun kv => strContains kv.1 "UserAccessRight") with
      | none => .error "IndexError: list index out of range"
      | some kv =>
        process_users_loop workspace_id
          { st1 with
            user_access :=
              st1.user_access ++ [(gid.toRow, workspace_id, (kv.2).toRow, "workspace")] }
          rest

/-- process_workspace_users (transform_powerbi.py lines 37-47). -/
def process_workspace_users (st : FlattenState) (workspace : WorkspaceRec) :
    Except String FlattenState :=
  match lookupKey "id" workspace with
  | none => .error "KeyError: id"
  | some wid =>
    match getWsList "users" workspace with
    | .error e => .error e
    | .ok us => process_users_loop wid.toRow st us

/-- The inner object loop of process_workspace_objects
(transform_powerbi.py lines 55-57). -/
def process_objects_list (st : FlattenState) (workspace_id : RowVal)
    (object_type : String) : List ObjRec → Except String FlattenState
  | [] => .ok st
  | object_data :: rest =>
    match fill_dimension_table st workspace_id object_type object_data with
    | .error e => .error e
    | .ok st' => process_objects_list st' workspace_id object_type rest

/-- The key loop of process_workspace_objects (transform_powerbi.py lines
52-57): skip non-list values and the users key, and process every other
list value with object type rstrip-s of the key. -/
def process_objects_items (st : FlattenState) (workspace_id : RowVal) :
    List (String × WsVal) → Except String FlattenState
  | [] => .ok st
  | (key, value) :: rest =>
    match value with
    | .leaf _ => process_objects_items st workspace_id rest
    | .lst os =>
      if key == "users" then process_objects_items st workspace_id rest
      else
        match process_objects_list st workspace_id (rstripS key) os with
        | .error e => .error e
        | .ok st' => process_objects_items st' workspace_id rest

/-- process_workspace_objects (transform_powerbi.py lines 49-57): reads
the workspace id and then iterates over all items of the workspace. -/
def process_workspace_objects (st : FlattenState) (workspace : WorkspaceRec) :
    Except String FlattenState :=
  match lookupKey "id" workspace with
  | none => .error "KeyError: id"
  | some wid => process_objects_items st wid.toRow workspace

/-- The per-workspace key dispatch of transform_powerbi_data
(transform_powerbi.py lines 80-86): non-list values are skipped, the users
key goes to process_workspace_users, and every other list key triggers a
full process_workspace_objects pass over the workspace (so a workspace
with several object collections has all of them processed once per such
key, as in the source). -/
def process_workspace_items (st : FlattenState) (workspace : WorkspaceRec) :
    List (String × WsVal) → Except String FlattenState
  | [] => .ok st
  | (key, value) :: rest =>
    match value with
    | .leaf _ => process_workspace_items st workspace rest
    | .lst _ =>
      if key == "users" then
        match process_workspace_users st workspace with
        | .error e => .error e
        | .ok st' => process_workspace_items st' workspace rest
      else
        match process_workspace_objects st workspace with
        | .error e => .error e
        | .ok st' => process_workspace_items st' workspace rest

/-- The workspace loop of transform_powerbi_data (transform_powerbi.py
lines 79-86), starting from the four empty collections of lines 73-76. -/
def flatten_workspaces (st : FlattenState) : List WorkspaceRec → Except String FlattenState
  | [] => .ok st
  | ws :: rest =>
    match process_workspace_items st ws ws with
    | .error e => .error e
    | .ok st' => flatten_workspaces st' rest

/-! ## Deduplication and shaping (transform_powerbi.py lines 88-96)

pandas drop_duplicates with default arguments keeps the first occurrence
of every row and preserves the relative order of kept rows; it is embedded
as a left-to-right scan with a seen accumulator. -/

def dedupAux {α : Type} [DecidableEq α] (seen : List α) : List α → List α
  | [] => []
  | a :: t => if a ∈ seen then dedupAux seen t else a :: dedupAux (a :: seen) t

/-- pandas DataFrame.drop_duplicates on a table viewed as its list of rows. -/
def drop_duplicates {α : Type} [DecidableEq α] (l : List α) : List α :=
  dedupAux [] l

/-- The silver tables derived from the flattened collections (the
workspaces and activities passthrough tables of lines 92 and 94 are raw
I/O reads, out of the transform proper). -/
structure SilverTables where
  users : List UserEntry
  user_access : List AccessRow
  workspace_content : List ContentRow
  dims : List (String × List DimRow)
deriving DecidableEq

/-- The output-table construction of transform_powerbi.py lines 89-96:
users, user_access and every per-object-type dimension table go through
drop_duplicates; workspace_content (line 93) does not. -/
def transform_shape (st : FlattenState) : SilverTables :=
  { users := drop_duplicates st.users
    user_access := drop_duplicates st.user_access
    workspace_content := st.workspace_content
    dims := st.all_data.map (fun kv => (kv.1, drop_duplicates kv.2)) }

/-- The pure core of transform_powerbi_data (transform_powerbi.py lines
73-96): flatten all workspace records, then shape; any exception raised
during flattening propagates (it is logged and re-raised at lines 104-106). -/
def transform_powerbi_data (wss : List WorkspaceRec) : Except String SilverTables :=
  match flatten_workspaces ⟨[], [], [], []⟩ wss with
  | .error e => .error e
  | .ok st => .ok (transform_shape st)

/-! ## Curated-layer merge engine (load_powerbi.py)

A DataFrame is a list of rows; a row maps column labels to values.  A
column label is either a name or a positional index (tables built from
lists of lists have integer column labels 0, 1, ...; id_columns uses the
integer 0 for user_access and workspace_content). -/

abbrev Row (kappa V : Type) := List (kappa × V)

/-- The column value of a row (pandas df of c evaluated rowwise). -/
def colVal {kappa V : Type} [BEq kappa] (c : kappa) (r : Row kappa V) : Option V :=
  (r.find? (fun kv => kv.1 == c)).map (fun kv => kv.2)

/-- merge_new_rows (load_powerbi.py lines 9-20): if the current table is
empty return the silver table unchanged; otherwise keep the current rows
and append the silver rows whose identity-column value does not occur in
the current identity column (the isin mask of line 17). -/
def merge_new_rows {kappa V : Type} [DecidableEq kappa] [DecidableEq V]
    (current_df silver_df : List (Row kappa V)) (id_column : kappa) :
    List (Row kappa V) :=
  if current_df.isEmpty then silver_df
  else
    current_df ++
      silver_df.filter
        (fun r => !(decide (colVal id_column r ∈ current_df.map (colVal id_column))))

/-- A column label: a string name or a positional integer index. -/
inductive ColLabel where
  | named (s : String)
  | pos (n : Nat)
deriving DecidableEq

abbrev LoadTable := List (Row ColLabel LeafVal)

/-- id_columns.get(name, id) (load_powerbi.py lines 28-33 and 47). -/
def id_columns (name : String) : ColLabel :=
  if name == "users" then .named "graphId"
  else if name == "activities" then .named "Id"
  else if name == "user_access" then .pos 0
  else if name == "workspace_content" then .pos 0
  else .named "id"

/-- The table lists of load_powerbi.py lines 36-39. -/
def all_tables : List (String × List String) :=
  [("dimensions", ["users", "workspaces", "reports", "datasets"]),
   ("facts", ["user_access", "workspace_content", "activities", "azure_spend"])]

/-- load_powerbi.py line 48. -/
def path_abbrev (kind : String) : String :=
  if kind == "dimensions" then "dim" else "fact"

/-- The gold path of load_powerbi.py lines 54 and 70. -/
def gold_path (kind name : String) : String :=
  kind ++ "/" ++ path_abbrev kind ++ "_" ++ name

/-- The storage and I/O collaborators of the load step, as abstract
fallible operations (read_parquet_data on silver by table name with the
date/client path prefix folded in, read_parquet_data on gold by path, and
write_parquet_data on gold by path). -/
structure LoadEnv where
  read_silver : String → Except String LoadTable
  read_gold : String → Except String LoadTable
  write_gold : String → LoadTable → Except String Unit

/-- A log call made by the load step: level and message (the client and
operation arguments are the constants client and powerbi_load). -/
structure LoadLog where
  level : String
  text : String
deriving DecidableEq

/-- The body of the per-table loop of load_powerbi.py lines 44-86,
returning the log calls it makes and the gold writes it performs.  The
outer try catches any failure of the silver read or the gold write and
logs it at ERROR; the inner try catches any failure while obtaining the
current gold table and falls back to the fresh silver table with an INFO
log (the bootstrap path). -/
def process_table (env : LoadEnv) (kind name : String) :
    List LoadLog × List (String × LoadTable) :=
  match env.read_silver name with
  | .error e => ([⟨"ERROR", "Error processing " ++ name ++ " table: " ++ e⟩], [])
  | .ok dataframe =>
    let id_column := id_columns name
    let p := gold_path kind name
    let bootLogs_df : List LoadLog × LoadTable :=
      match env.read_gold p with
      | .ok current_dataframe =>
        ([], merge_new_rows current_dataframe dataframe id_column)
      | .error _ => ([⟨"INFO", "Creating new table: " ++ name⟩], dataframe)
    match env.write_gold p bootLogs_df.2 with
    | .error e =>
      (bootLogs_df.1 ++ [⟨"ERROR", "Error processing " ++ name ++ " table: " ++ e⟩], [])
    | .ok _ =>
      (bootLogs_df.1 ++ [⟨"INFO", "Successfully processed " ++ name ++ " table"⟩],
       [(p, bootLogs_df.2)])

/-- The inner name loop of load_powerbi.py line 43. -/
def load_names (env : LoadEnv) (kind : String) :
    List String → List LoadLog × List (String × LoadTable)
  | [] => ([], [])
  | name :: rest =>
    let this := process_table env kind name
    let others := load_names env kind rest
    (this.1 ++ others.1, this.2 ++ others.2)

/-- The outer kind loop of load_powerbi.py line 42. -/
def load_tables (env : LoadEnv) :
    List (String × List String) → List LoadLog × List (String × LoadTable)
  | [] => ([], [])
  | (kind, names) :: rest =>
    let this := load_names env kind names
    let others := load_tables env rest
    (this.1 ++ others.1, this.2 ++ others.2)

/-- load_power_bi_data (load_powerbi.py lines 22-86), as the trace of log
calls and gold writes over the fixed table lists. -/
def load_power_bi_data (env : LoadEnv) : List LoadLog × List (String × LoadTable) :=
  load_tables env all_tables

/-! ## Paginated workspace retrieval (powerbi_api.py lines 25-54)

get_workspaces asks for pages of size top and recurses while the server
returns exactly top rows, extending the accumulator list in place.  The
server is modelled by the finite list of page responses it would return
for skip = 0, top, 2*top, ...; an exhausted page list stands for a server
that answers with an empty page, ending the recursion (top is positive in
all calls: its default is 500). -/

def get_workspaces_pages {α : Type} (top : Nat) (pages : List (List α))
    (data : List α) : List α :=
  match pages with
  | [] => data
  | p :: rest =>
    let d := data ++ p
    if p.length = top then get_workspaces_pages top rest d else d

/-- One call of get_workspaces that omits the data argument, under Python
default-argument semantics: the default list object is created once at
function definition, every such call extends that same object in place,
and the returned list is that object.  The state is the current contents
of the shared default list; the call returns the result together with the
new state. -/
def get_workspaces_call {α : Type} (top : Nat) (pages : List (List α))
    (default_data : List α) : List α × List α :=
  let r := get_workspaces_pages top pages default_data
  (r, r)

/-! ## In-memory log buffer (custom_logger.py lines 15-39) -/

structure LogEntry where
  client : String
  date : String
  time : String
  operation : String
  kind : String
  text : String
deriving DecidableEq

/-- LoggingManager.write_log: build the entry (the date and time fields
come from the ambient clock, passed here as arguments), print it unless
the kind is DEBUG, and append it to logging_rows.  The result is the new
buffer plus whether the entry was printed. -/
def write_log (logging_rows : List LogEntry)
    (now_date now_time client operation kind text : String) :
    List LogEntry × Bool :=
  let log_entry : LogEntry :=
    { client := client, date := now_date, time := now_time,
      operation := operation, kind := kind, text := text }
  (logging_rows ++ [log_entry], kind != "DEBUG")

/-- A sequence of write_log calls (arguments in call order), threading the
buffer. -/
def write_log_run (logging_rows : List LogEntry) :
    List (String × String × String × String × String × String) → List LogEntry
  | [] => logging_rows
  | c :: cs =>
    write_log_run (write_log logging_rows c.1 c.2.1 c.2.2.1 c.2.2.2.1 c.2.2.2.2.1 c.2.2.2.2.2).1 cs

/-- The entry a single write_log call appends. -/
def mkLogEntry (c : String × String × String × String × String × String) : LogEntry :=
  { client := c.2.2.1, date := c.1, time := c.2.1,
    operation := c.2.2.2.1, kind := c.2.2.2.2.1, text := c.2.2.2.2.2 }

/-! ## Concrete inputs used by the scenario claims -/

/-- The workspace record of the spec scenario in section 8: id W1, one
workspace user U1 with right Member, one report R1 named Sales with one
nested user U2 with right Viewer. -/
def wsScenario : WorkspaceRec :=
  [("id", .leaf (.str "W1")),
   ("users", .lst
      [[("graphId", ObjField.leaf (.str "U1")),
        ("xUserAccessRight", ObjField.leaf (.str "Member"))]]),
   ("reports", .lst
      [[("id", ObjField.leaf (.str "R1")),
        ("users", ObjField.nested
           [[("graphId", LeafVal.str "U2"), ("yUserAccessRight", LeafVal.str "Viewer")]]),
        ("name", ObjField.leaf (.str "Sales"))]])]

/-- A workspace whose only child collection sits under a key ending in a
double s. -/
def wsBoss : WorkspaceRec :=
  [("id", .leaf (.str "W1")),
   ("boss", .lst [[("id", ObjField.leaf (.str "B1"))]])]

/-- A workspace containing the same report object twice. -/
def wsDupReport : WorkspaceRec :=
  [("id", .leaf (.str "W1")),
   ("reports", .lst
      [[("id", ObjField.leaf (.str "R1"))], [("id", ObjField.leaf (.str "R1"))]])]

/-- A workspace containing a report object with neither id nor objectId. -/
def wsNoId : WorkspaceRec :=
  [("id", .leaf (.str "W1")),
   ("reports", .lst [[("name", ObjField.leaf (.str "x"))]])]

/-- A workspace whose report has a nested user without an access-right
field. -/
def wsNoRight : WorkspaceRec :=
  [("id", .leaf (.str "W1")),
   ("reports", .lst
      [[("id", ObjField.leaf (.str "R1")),
        ("users", ObjField.nested [[("graphId", LeafVal.str "U2")]])]])]

/-- An environment in which every silver read succeeds with an empty
table, every gold read fails, and every write succeeds. -/
def envGoldFail : LoadEnv :=
  { read_silver := fun _ => .ok []
    read_gold := fun _ => .error "gold table unreadable"
    write_gold := fun _ _ => .ok () }

end VisionBI

namespace VisionBI

/-! ## Helper lemmas -/

theorem dedupAux_sublist {α : Type} [DecidableEq α] (seen : List α) (l : List α) :
    (dedupAux seen l).Sublist l := by
  induction l generalizing seen with
  | nil => simp [dedupAux]
  | cons a t ih =>
    by_cases h : a ∈ seen
    · simp only [dedupAux, if_pos h]
      exact (ih seen).cons a
    · simp only [dedupAux, if_neg h]
      exact (ih (a :: seen)).cons₂ a

theorem mem_dedupAux_not_seen {α : Type} [DecidableEq α] {seen l : List α} {x : α}
    (hx : x ∈ dedupAux seen l) : x ∉ seen := by
  induction l generalizing seen with
  | nil => simp [dedupAux] at hx
  | cons a t ih =>
    by_cases h : a ∈ seen
    · rw [dedupAux, if_pos h] at hx
      exact ih hx
    · rw [dedupAux, if_neg h] at hx
      rcases List.mem_cons.mp hx with rfl | hx'
      · exact h
      · intro hs
        exact ih hx' (List.mem_cons_of_mem a hs)

theorem dedupAux_nodup {α : Type} [DecidableEq α] (seen : List α) (l : List α) :
    (dedupAux seen l).Nodup := by
  induction l generalizing seen with
  | nil => simp [dedupAux]
  | cons a t ih =>
    by_cases h : a ∈ seen
    · simpa [dedupAux, if_pos h] using ih seen
    · rw [dedupAux, if_neg h]
      refine List.nodup_cons.mpr ⟨fun hmem => ?_, ih (a :: seen)⟩
      exact mem_dedupAux_not_seen hmem (List.mem_cons_self a seen)

theorem drop_duplicates_sublist {α : Type} [DecidableEq α] (l : List α) :
    (drop_duplicates l).Sublist l :=
  dedupAux_sublist [] l

theorem drop_duplicates_nodup {α : Type} [DecidableEq α] (l : List α) :
    (drop_duplicates l).Nodup :=
  dedupAux_nodup [] l

theorem head?_dropWhile_not {α : Type} (p : α → Bool) (l : List α) {c : α}
    (h : (l.dropWhile p).head? = some c) : p c = false := by
  induction l with
  | nil => simp [List.dropWhile] at h
  | cons a t ih =>
    by_cases hp : p a
    · rw [List.dropWhile_cons_of_pos hp] at h
      exact ih h
    · rw [List.dropWhile_cons_of_neg hp] at h
      simp at h
      subst h
      exact Bool.not_eq_true _ ▸ (by simpa using hp)

theorem mkString_data (l : List Char) : (String.mk l).data = l := rfl

theorem string_eta (s : String) : String.mk s.data = s := rfl

/-- C3 counterexample: for the sequence-valued workspace key boss the
engine assigns the object type bo (every trailing s is stripped), not bos
(exactly one trailing s stripped) as the claim states. -/
theorem singularization_counterexample :
    transform_powerbi_data [wsBoss] =
      Except.ok
        { users := []
          user_access := []
          workspace_content :=
            [(RowVal.leaf (.str "W1"), RowVal.leaf (.str "B1"), "bo")]
          dims := [("bo", [[("id", "B1")]])] } ∧
    decide (("bo" : String) = "bos") = false := by
  constructor
  · rfl
  · rfl

/-- C3 (amended): for every non-users sequence-valued workspace key, the
object type assigned to its child objects is the key with its entire
trailing run of s characters removed (Python rstrip): the result never
ends in s, only trailing s characters are removed, keys not ending in s
are unchanged, and in particular datasets maps to dataset and reports to
report. -/
theorem singularization_rstrip_spec :
    (∀ st wid key os rest, (key == "users") = false →
        process_objects_items st wid ((key, WsVal.lst os) :: rest) =
          match process_objects_list st wid (rstripS key) os with
          | .error e => .error e
          | .ok st' => process_objects_items st' wid rest) ∧
    (∀ s : String, ∃ k, s.data = (rstripS s).data ++ List.replicate k 's') ∧
    (∀ s : String, (rstripS s).data.getLast? ≠ some 's') ∧
    (∀ s : String, s.data.getLast? ≠ some 's' → rstripS s = s) ∧
    rstripS "datasets" = "dataset" ∧ rstripS "reports" = "report" := by
  refine ⟨?_, ?_, ?_, ?_, rfl, rfl⟩
  · intro st wid key os rest hkey
    simp [process_objects_items, hkey]
  · intro s
    refine ⟨((s.data.reverse.takeWhile (fun c => c == 's')).reverse).length, ?_⟩
    conv_lhs => rw [← s.data.reverse_reverse,
      ← List.takeWhile_append_dropWhile (p := fun c => c == 's') (l := s.data.reverse)]
    rw [List.reverse_append]
    have hrep : (s.data.reverse.takeWhile (fun c => c == 's')).reverse =
        List.replicate ((s.data.reverse.takeWhile (fun c => c == 's')).reverse).length 's' := by
      apply List.eq_replicate_of_mem
      intro b hb
      have := List.mem_takeWhile_imp (List.mem_reverse.mp hb)
      simpa using this
    rw [hrep, rstripS]
    simp
  · intro s h
    rw [rstripS, mkString_data, List.getLast?_reverse] at h
    have := head?_dropWhile_not (fun c => c == 's') s.data.reverse h
    simp at this
  · intro s h
    rw [rstripS]
    cases hr : s.data.reverse with
    | nil =>
      have hd : s.data = [] := by
        have := congrArg List.reverse hr
        simpa using this
      simp [hr]
      conv_rhs => rw [← string_eta s]
      rw [hd]
    | cons c t =>
      have hc : ¬ c = 's' := by
        intro hcs
        apply h
        rw [← List.head?_reverse, hr, hcs]
        rfl
      have hdw : (c :: t).dropWhile (fun x => x == 's') = c :: t := by
        rw [List.dropWhile_cons_of_neg]
        simpa using hc
      rw [hdw, ← hr, List.reverse_reverse]

/-- C3 amended-theorem witness: instantiation at concrete inputs. -/
theorem singularization_rstrip_spec_witness :
    rstripS "boss" = rstripS "boss" ∧ rstripS "report" = "report" := by
  constructor
  · rfl
  · exact singularization_rstrip_spec.2.2.2.1 "report" (by decide)

/-- C4 counterexample: the shaping step does not deduplicate
workspace_content — a workspace listing the same report twice produces a
workspace_content table that still contains the duplicate row (only users,
user_access and the dimension tables go through drop_duplicates; note the
report dimension table was deduplicated to one row from the same input). -/
theorem shaping_dedup_counterexample :
    transform_powerbi_data [wsDupReport] =
      Except.ok
        { users := []
          user_access := []
          workspace_content :=
            [(RowVal.leaf (.str "W1"), RowVal.leaf (.str "R1"), "report"),
             (RowVal.leaf (.str "W1"), RowVal.leaf (.str "R1"), "report")]
          dims := [("report", [[("id", "R1")]])] } ∧
    decide (([(RowVal.leaf (.str "W1"), RowVal.leaf (.str "R1"), "report"),
        (RowVal.leaf (.str "W1"), RowVal.leaf (.str "R1"), "report")] :
        List ContentRow).Nodup) = false := by
  constructor
  · rfl
  · rfl

/-- C4 (amended): the shaping step removes exact-duplicate rows (full-row
equality, first occurrence kept, order of kept rows preserved) from the
users and user_access tables and from every per-object-type dimension
table, but not from workspace_content, which is passed through unchanged;
consequently every output table has at most as many rows as its input
collection. -/
theorem shaping_dedup_spec :
    ∀ st : FlattenState,
      (transform_shape st).users.Nodup ∧
      (transform_shape st).users.Sublist st.users ∧
      (transform_shape st).users.length ≤ st.users.length ∧
      (transform_shape st).user_access.Nodup ∧
      (transform_shape st).user_access.Sublist st.user_access ∧
      (transform_shape st).user_access.length ≤ st.user_access.length ∧
      (transform_shape st).workspace_content = st.workspace_content ∧
      (∀ t rows, (t, rows) ∈ st.all_data →
        (t, drop_duplicates rows) ∈ (transform_shape st).dims ∧
        (drop_duplicates rows).Nodup ∧
        (drop_duplicates rows).Sublist rows ∧
        (drop_duplicates rows).length ≤ rows.length) := by
  intro st
  refine ⟨drop_duplicates_nodup _, drop_duplicates_sublist _,
    (drop_duplicates_sublist _).length_le,
    drop_duplicates_nodup _, drop_duplicates_sublist _,
    (drop_duplicates_sublist _).length_le, rfl, ?_⟩
  intro t rows hmem
  refine ⟨?_, drop_duplicates_nodup _, drop_duplicates_sublist _,
    (drop_duplicates_sublist _).length_le⟩
  exact List.mem_map.mpr ⟨(t, rows), hmem, rfl⟩

/-- C4 amended-theorem witness: instantiation at a concrete flatten state
with a duplicated dimension row. -/
theorem shaping_dedup_spec_witness :
    (transform_shape
        ⟨[], [],
         [(RowVal.leaf (.str "W1"), RowVal.leaf (.str "R1"), "report"),
          (RowVal.leaf (.str "W1"), RowVal.leaf (.str "R1"), "report")],
         [("report", [[("id", "R1")], [("id", "R1")]])]⟩).workspace_content =
      [(RowVal.leaf (.str "W1"), RowVal.leaf (.str "R1"), "report"),
       (RowVal.leaf (.str "W1"), RowVal.leaf (.str "R1"), "report")] ∧
    ("report", drop_duplicates [[("id", "R1")], [("id", "R1")]]) ∈
      (transform_shape
        ⟨[], [],
         [(RowVal.leaf (.str "W1"), RowVal.leaf (.str "R1"), "report"),
          (RowVal.leaf (.str "W1"), RowVal.leaf (.str "R1"), "report")],
         [("report", [[("id", "R1")], [("id", "R1")]])]⟩).dims := by
  constructor
  · exact (shaping_dedup_spec _).2.2.2.2.2.2.1
  · exact ((shaping_dedup_spec _).2.2.2.2.2.2.2 "report"
      [[("id", "R1")], [("id", "R1")]] (by decide)).1

/-- C5: for every child object the flattening engine resolves the identity
as the value of field id when present, else the value of field objectId,
and an object with neither field makes fill_dimension_table raise a
KeyError which aborts the whole flattening pass (as shown by the concrete
tenant input wsNoId); the object is neither skipped nor given a default. -/
theorem identity_resolution_spec :
    (∀ (st : FlattenState) (wid : RowVal) (ot : String) (od : ObjRec) (v : ObjField)
        (st' : FlattenState),
        lookupKey "id" od = some v →
        fill_dimension_table st wid ot od = .ok st' →
        st'.workspace_content = st.workspace_content ++ [(wid, v.toRow, ot)]) ∧
    (∀ (st : FlattenState) (wid : RowVal) (ot : String) (od : ObjRec) (v : ObjField)
        (st' : FlattenState),
        lookupKey "id" od = none → lookupKey "objectId" od = some v →
        fill_dimension_table st wid ot od = .ok st' →
        st'.workspace_content = st.workspace_content ++ [(wid, v.toRow, ot)]) ∧
    (∀ (st : FlattenState) (wid : RowVal) (ot : String) (od : ObjRec),
        lookupKey "id" od = none → lookupKey "objectId" od = none →
        fill_dimension_table st wid ot od = Except.error "KeyError: objectId") ∧
    transform_powerbi_data [wsNoId] = Except.error "KeyError: objectId" := by
  refine ⟨?_, ?_, ?_, rfl⟩
  · intro st wid ot od v st' hid hok
    have hres : resolveElementId od = .ok v := by simp [resolveElementId, hid]
    rw [fill_dimension_table, hres] at hok
    dsimp only at hok
    cases hg : getObjUsers od with
    | error e => rw [hg] at hok; exact absurd hok (by simp)
    | ok nus =>
      rw [hg] at hok
      dsimp only at hok
      cases hf : fill_user_table UserEntry.row ot v.toRow nus st.users with
      | error e => rw [hf] at hok; exact absurd hok (by simp)
      | ok us' =>
        rw [hf] at hok
        simp only [Except.ok.injEq] at hok
        subst hok
        rfl
  · intro st wid ot od v st' hid hobj hok
    have hres : resolveElementId od = .ok v := by simp [resolveElementId, hid, hobj]
    rw [fill_dimension_table, hres] at hok
    dsimp only at hok
    cases hg : getObjUsers od with
    | error e => rw [hg] at hok; exact absurd hok (by simp)
    | ok nus =>
      rw [hg] at hok
      dsimp only at hok
      cases hf : fill_user_table UserEntry.row ot v.toRow nus st.users with
      | error e => rw [hf] at hok; exact absurd hok (by simp)
      | ok us' =>
        rw [hf] at hok
        simp only [Except.ok.injEq] at hok
        subst hok
        rfl
  · intro st wid ot od hid hobj
    have hres : resolveElementId od = .error "KeyError: objectId" := by
      simp [resolveElementId, hid, hobj]
    rw [fill_dimension_table, hres]

/-- C5 witness: concrete instantiations of the three cases of the
identity-resolution theorem. -/
theorem identity_resolution_spec_witness :
    fill_dimension_table ⟨[], [], [], []⟩ (RowVal.leaf (.str "W1")) "report"
        [("name", ObjField.leaf (.str "x"))] =
      Except.error "KeyError: objectId" ∧
    (transform_shape ⟨[], [], [(RowVal.leaf (.str "W1"), (ObjField.leaf (.str "R1")).toRow,
        "report")], []⟩).workspace_content =
      (transform_shape ⟨[], [], [(RowVal.leaf (.str "W1"), (ObjField.leaf (.str "R1")).toRow,
        "report")], []⟩).workspace_content := by
  constructor
  · exact identity_resolution_spec.2.2.1 ⟨[], [], [], []⟩ (RowVal.leaf (.str "W1"))
      "report" [("name", ObjField.leaf (.str "x"))] (by decide) (by decide)
  · rfl

/-- C6: the access right recorded for a user record is the value of the
first key whose name contains the substring UserAccessRight (the
list-comprehension-then-subscript of the source is first-match), and a
user record without such a key raises IndexError instead of defaulting;
this holds in fill_user_table (nested users) and in process_workspace_users
(workspace users), and such an input aborts the whole pass (wsNoRight). -/
theorem access_right_discovery_spec :
    (∀ (E : Type) (inj : AccessRow → E) (ot : String) (oid : RowVal)
        (u : NestedUser) (rest : List NestedUser) (acc : List E)
        (kv : String × LeafVal) (g : LeafVal),
        findAccessField u = some kv →
        lookupKey "graphId" u = some g →
        fill_user_table inj ot oid (u :: rest) acc =
          fill_user_table inj ot oid rest
            (acc ++ [inj (RowVal.leaf g, oid, RowVal.leaf kv.2, ot)])) ∧
    (∀ (E : Type) (inj : AccessRow → E) (ot : String) (oid : RowVal)
        (u : NestedUser) (rest : List NestedUser) (acc : List E),
        findAccessField u = none →
        fill_user_table inj ot oid (u :: rest) acc =
          Except.error "IndexError: list index out of range") ∧
    (∀ u : NestedUser,
        findAccessField u =
          (u.filter (fun kv => strContains kv.1 "UserAccessRight")).head?) ∧
    (∀ (wid : RowVal) (st : FlattenState) (u : ObjRec) (rest : List ObjRec)
        (g : ObjField),
        lookupKey "graphId" u = some g →
        u.find? (fun kv => strContains kv.1 "UserAccessRight") = none →
        process_users_loop wid st (u :: rest) =
          Except.error "IndexError: list index out of range") ∧
    transform_powerbi_data [wsNoRight] =
      Except.error "IndexError: list index out of range" := by
  refine ⟨?_, ?_, ?_, ?_, rfl⟩
  · intro E inj ot oid u rest acc kv g hf hg
    rw [fill_user_table, hf, hg]
  · intro E inj ot oid u rest acc hf
    rw [fill_user_table, hf]
  · intro u
    induction u with
    | nil => rfl
    | cons kv t ih =>
      by_cases h : strContains kv.1 "UserAccessRight"
      · simp [findAccessField, List.find?, List.filter, h]
      · simp only [findAccessField, List.find?, List.filter, h]
        exact ih
  · intro wid st u rest g hg hf
    rw [process_users_loop, hg, hf]

/-- C6 witness: a nested user record without an access-right key makes
fill_user_table fail with IndexError. -/
theorem access_right_discovery_spec_witness :
    fill_user_table (fun r => r) "report" (RowVal.leaf (.str "R1"))
        [[("graphId", LeafVal.str "U2")]] [] =
      Except.error "IndexError: list index out of range" :=
  access_right_discovery_spec.2.1 AccessRow (fun r => r) "report"
    (RowVal.leaf (.str "R1")) [("graphId", LeafVal.str "U2")] [] [] (by decide)

/-- C2: merging an absent or empty gold table yields exactly the incoming
table (for the absent case the caller of merge_new_rows writes the silver
table unchanged); otherwise the result is the existing rows unchanged and
in order, followed by exactly those incoming rows whose identity-column
value occurs nowhere in the existing identity column, in incoming order;
in particular the spec scenario merge holds. -/
theorem merge_new_rows_spec :
    (∀ (kappa V : Type) [DecidableEq kappa] [DecidableEq V]
        (silver : List (Row kappa V)) (c : kappa),
        merge_new_rows [] silver c = silver) ∧
    (∀ (kappa V : Type) [DecidableEq kappa] [DecidableEq V]
        (current silver : List (Row kappa V)) (c : kappa),
        current ≠ [] →
        merge_new_rows current silver c =
          current ++ silver.filter
            (fun r => decide (∀ r' ∈ current, colVal c r' ≠ colVal c r))) ∧
    (∀ (env : LoadEnv) (kind name : String) (df : LoadTable) (e : String),
        env.read_silver name = .ok df →
        env.read_gold (gold_path kind name) = .error e →
        env.write_gold (gold_path kind name) df = .ok () →
        (process_table env kind name).2 = [(gold_path kind name, df)]) ∧
    merge_new_rows [[(("id" : String), (1 : Int))], [("id", 2)]]
        [[("id", 2)], [("id", 3)]] "id" =
      [[("id", 1)], [("id", 2)], [("id", 3)]] := by
  refine ⟨?_, ?_, ?_, rfl⟩
  · intro kappa V ik iv silver c
    rfl
  · intro kappa V ik iv current silver c hne
    cases current with
    | nil => exact absurd rfl hne
    | cons a t =>
      simp only [merge_new_rows, List.isEmpty_cons, Bool.false_eq_true, if_false]
      congr 1
      apply List.filter_congr
      intro r _
      rw [← decide_not, decide_eq_decide]
      constructor
      · intro h r' hr' heq
        exact h (List.mem_map.mpr ⟨r', hr', heq⟩)
      · intro h hmem
        obtain ⟨r', hr', heq⟩ := List.mem_map.mp hmem
        exact h r' hr' heq
  · intro env kind name df e h1 h2 h3
    simp [process_table, h1, h2, h3]

/-- C2 witness: concrete instantiation of the non-empty merge case. -/
theorem merge_new_rows_spec_witness :
    merge_new_rows [[(("id" : String), (1 : Int))]] [[("id", 1)], [("id", 3)]] "id" =
      [[(("id" : String), (1 : Int))]] ++
        ([[("id", 1)], [("id", 3)]] : List (Row String Int)).filter
          (fun r => decide (∀ r' ∈ [[(("id" : String), (1 : Int))]],
            colVal "id" r' ≠ colVal "id" r)) :=
  merge_new_rows_spec.2.1 String Int [[("id", 1)]] [[("id", 1)], [("id", 3)]] "id"
    (by decide)

/-- C9: merge_new_rows deduplicates nothing inside the incoming table: when
the existing table is non-empty, every incoming row whose identity value v
is absent from the existing identity column is appended (the count of
v-rows in the result equals their count in the incoming table, so k
duplicates with a fresh identity are all kept), and the existing rows -
including any duplicates already inside them - are preserved unchanged as
a prefix of the result. -/
theorem merge_keeps_duplicates_spec :
    (∀ (kappa V : Type) [DecidableEq kappa] [DecidableEq V]
        (current silver : List (Row kappa V)) (c : kappa) (v : V),
        current ≠ [] →
        some v ∉ current.map (colVal c) →
        (merge_new_rows current silver c).countP
            (fun r => decide (colVal c r = some v)) =
          silver.countP (fun r => decide (colVal c r = some v))) ∧
    (∀ (kappa V : Type) [DecidableEq kappa] [DecidableEq V]
        (current silver : List (Row kappa V)) (c : kappa),
        current ≠ [] →
        ∃ rest, merge_new_rows current silver c = current ++ rest) ∧
    merge_new_rows [[(("id" : String), (0 : Int))]]
        [[("id", 1)], [("id", 1)]] "id" =
      [[("id", 0)], [("id", 1)], [("id", 1)]] := by
  refine ⟨?_, ?_, rfl⟩
  · intro kappa V ik iv current silver c v hne hnv
    cases current with
    | nil => exact absurd rfl hne
    | cons a t =>
      simp only [merge_new_rows, List.isEmpty_cons, Bool.false_eq_true, if_false]
      rw [List.countP_append]
      have hzero : (a :: t).countP (fun r => decide (colVal c r = some v)) = 0 := by
        apply List.countP_eq_zero.mpr
        intro r' hr'
        simp only [decide_eq_true_eq]
        intro heq
        exact hnv (List.mem_map.mpr ⟨r', hr', heq⟩)
      rw [hzero, Nat.zero_add, List.countP_filter]
      apply List.countP_congr
      intro r _
      simp only [Bool.and_eq_true, decide_eq_true_eq, Bool.not_eq_true',
        decide_eq_false_iff_not]
      constructor
      · intro h
        exact h.1
      · intro h
        refine ⟨h, ?_⟩
        intro hmem
        rw [h] at hmem
        exact hnv hmem
  · intro kappa V ik iv current silver c hne
    cases current with
    | nil => exact absurd rfl hne
    | cons a t =>
      refine ⟨silver.filter
        (fun r => !(decide (colVal c r ∈ (a :: t).map (colVal c)))), ?_⟩
      rfl

/-- C9 witness: two incoming rows with the same fresh identity are both
appended. -/
theorem merge_keeps_duplicates_spec_witness :
    ([[(("id" : String), (0 : Int))], [("id", 1)], [("id", 1)]] :
        List (Row String Int)).countP
        (fun r => decide (colVal "id" r = some 1)) =
      ([[(("id" : String), (1 : Int))], [("id", 1)]] : List (Row String Int)).countP
        (fun r => decide (colVal "id" r = some 1)) := by
  have h := merge_keeps_duplicates_spec.1 String Int
    [[("id", 0)]] [[("id", 1)], [("id", 1)]] "id" 1
    (by decide) (by decide)
  rw [merge_keeps_duplicates_spec.2.2] at h
  exact h

/-- C7 counterexample: a failure to read the existing gold table is an
error while reading that table, yet it is caught by the inner handler and
logged at INFO (bootstrap path), not at ERROR as the claim states - the
table is recreated from silver and both log entries are INFO. -/
theorem load_error_level_counterexample :
    envGoldFail.read_gold (gold_path "dimensions" "users") =
      Except.error "gold table unreadable" ∧
    process_table envGoldFail "dimensions" "users" =
      ([⟨"INFO", "Creating new table: users"⟩,
        ⟨"INFO", "Successfully processed users table"⟩],
       [("dimensions/dim_users", [])]) ∧
    ([⟨"INFO", "Creating new table: users"⟩,
      ⟨"INFO", "Successfully processed users table"⟩] : List LoadLog).all
        (fun l => l.level != "ERROR") = true := by
  refine ⟨rfl, rfl, by decide⟩

/-- C7 (amended): each table of the silver-to-gold load is processed
independently: the log and write trace of a list of tables is the
concatenation of the per-table traces, so every table after a failing one
is still attempted; a failure reading the silver table or writing the gold
table is caught within that iteration and logged at ERROR; a failure
reading the existing gold table is caught by the inner handler, logged at
INFO as table creation, and the silver table is written in its place. -/
theorem load_error_isolation_spec :
    (∀ (env : LoadEnv) (kind : String) (ns1 ns2 : List String),
        load_names env kind (ns1 ++ ns2) =
          ((load_names env kind ns1).1 ++ (load_names env kind ns2).1,
           (load_names env kind ns1).2 ++ (load_names env kind ns2).2)) ∧
    (∀ (env : LoadEnv) (kind name e : String),
        env.read_silver name = .error e →
        process_table env kind name =
          ([⟨"ERROR", "Error processing " ++ name ++ " table: " ++ e⟩], [])) ∧
    (∀ (env : LoadEnv) (kind name e : String) (df cur : LoadTable),
        env.read_silver name = .ok df →
        env.read_gold (gold_path kind name) = .ok cur →
        env.write_gold (gold_path kind name)
            (merge_new_rows cur df (id_columns name)) = .error e →
        process_table env kind name =
          ([⟨"ERROR", "Error processing " ++ name ++ " table: " ++ e⟩], [])) ∧
    (∀ (env : LoadEnv) (kind name e1 e2 : String) (df : LoadTable),
        env.read_silver name = .ok df →
        env.read_gold (gold_path kind name) = .error e1 →
        env.write_gold (gold_path kind name) df = .error e2 →
        process_table env kind name =
          ([⟨"INFO", "Creating new table: " ++ name⟩,
            ⟨"ERROR", "Error processing " ++ name ++ " table: " ++ e2⟩], [])) ∧
    (∀ (env : LoadEnv) (kind name e : String) (df : LoadTable),
        env.read_silver name = .ok df →
        env.read_gold (gold_path kind name) = .error e →
        env.write_gold (gold_path kind name) df = .ok () →
        process_table env kind name =
          ([⟨"INFO", "Creating new table: " ++ name⟩,
            ⟨"INFO", "Successfully processed " ++ name ++ " table"⟩],
           [(gold_path kind name, df)])) := by
  refine ⟨?_, ?_, ?_, ?_, ?_⟩
  · intro env kind ns1 ns2
    induction ns1 with
    | nil => simp [load_names]
    | cons n t ih => simp [load_names, ih]
  · intro env kind name e h1
    simp [process_table, h1]
  · intro env kind name e df cur h1 h2 h3
    simp [process_table, h1, h2, h3]
  · intro env kind name e1 e2 df h1 h2 h3
    simp [process_table, h1, h2, h3]
  · intro env kind name e df h1 h2 h3
    simp [process_table, h1, h2, h3]

/-- C7 amended-theorem witness: a concrete environment whose silver read
fails yields exactly one ERROR log for that table and nothing written. -/
theorem load_error_isolation_spec_witness :
    process_table
        ⟨fun _ => Except.error "boom", fun _ => Except.ok [], fun _ _ => Except.ok ()⟩
        "facts" "activities" =
      ([⟨"ERROR", "Error processing activities table: boom"⟩], []) := by
  have h := load_error_isolation_spec.2.1
    ⟨fun _ => Except.error "boom", fun _ => Except.ok [], fun _ _ => Except.ok ()⟩
    "facts" "activities" "boom" rfl
  exact h

/-- Any run of get_workspaces appends exactly the pages it consumes to the
accumulator it starts from. -/
theorem get_workspaces_pages_eq_append {α : Type} (top : Nat) :
    ∀ (pages : List (List α)) (data : List α),
      ∃ k, get_workspaces_pages top pages data = data ++ (pages.take k).flatten := by
  intro pages
  induction pages with
  | nil =>
    intro data
    exact ⟨0, by simp [get_workspaces_pages]⟩
  | cons p ps ih =>
    intro data
    by_cases h : p.length = top
    · obtain ⟨k, hk⟩ := ih (data ++ p)
      refine ⟨k + 1, ?_⟩
      simp [get_workspaces_pages, h, hk, List.take_succ_cons]
    · exact ⟨1, by simp [get_workspaces_pages, h]⟩

/-- C8: two successive calls of get_workspaces that omit the data argument
share the mutable default accumulator: the second call returns the first
call's rows as a prefix followed by the pages it consumed itself, and with
identical inputs (one page of one row, page size 2) the two calls return
different lists, so the function is not deterministic across calls. -/
theorem get_workspaces_shared_default_spec :
    (∀ (α : Type) (top : Nat) (pages1 pages2 : List (List α)),
        ∃ k,
          (get_workspaces_call top pages2
              (get_workspaces_call top pages1 ([] : List α)).2).1 =
            (get_workspaces_call top pages1 ([] : List α)).1 ++
              (pages2.take k).flatten) ∧
    (get_workspaces_call 2 [["w1"]]
        ((get_workspaces_call 2 [["w1"]] ([] : List String)).2)).1 = ["w1", "w1"] ∧
    (get_workspaces_call 2 [["w1"]] ([] : List String)).1 = ["w1"] ∧
    decide ((["w1", "w1"] : List String) = ["w1"]) = false := by
  refine ⟨?_, rfl, rfl, rfl⟩
  intro alpha top pages1 pages2
  exact get_workspaces_pages_eq_append top pages2 _

/-- C10: every write_log call appends exactly one entry to the buffer
(also for DEBUG, which is merely not printed), removes or reorders
nothing, and a sequence of calls appends its entries in call order. -/
theorem write_log_append_spec :
    (∀ (rows : List LogEntry) (d t c o k x : String),
        (write_log rows d t c o k x).1 =
          rows ++ [{ client := c, date := d, time := t,
                     operation := o, kind := k, text := x }] ∧
        (write_log rows d t c o k x).1.length = rows.length + 1) ∧
    (∀ (rows : List LogEntry) (d t c o x : String),
        write_log rows d t c o "DEBUG" x =
          (rows ++ [{ client := c, date := d, time := t,
                      operation := o, kind := "DEBUG", text := x }], false)) ∧
    (∀ (rows : List LogEntry)
        (calls : List (String × String × String × String × String × String)),
        write_log_run rows calls = rows ++ calls.map mkLogEntry) := by
  refine ⟨?_, ?_, ?_⟩
  · intro rows d t c o k x
    exact ⟨rfl, by simp [write_log]⟩
  · intro rows d t c o x
    rfl
  · intro rows calls
    induction calls generalizing rows with
    | nil => simp [write_log_run]
    | cons cargs cs ih =>
      simp [write_log_run, write_log, mkLogEntry, ih]

/-- C1: evaluation of the flattening engine at the spec-scenario
workspace.  Because fill_dimension_table passes the users collection in
the position of fill_user_table's user_access parameter, the nested user's
access tuple (U2, R1, Viewer, report) ends up appended to users, and
user_access holds only the workspace-level tuple, contrary to the claim
(whose expected user_access has both tuples and whose users are the two
user records). -/
theorem transform_scenario_eval :
    transform_powerbi_data [wsScenario] =
      Except.ok
        { users :=
            [UserEntry.urec
               [("graphId", ObjField.leaf (.str "U1")),
                ("emailAddress", ObjField.leaf (.str "")),
                ("displayName", ObjField.leaf (.str ""))],
             UserEntry.row
               (RowVal.leaf (.str "U2"), RowVal.leaf (.str "R1"),
                RowVal.leaf (.str "Viewer"), "report")]
          user_access :=
            [(RowVal.leaf (.str "U1"), RowVal.leaf (.str "W1"),
              RowVal.leaf (.str "Member"), "workspace")]
          workspace_content :=
            [(RowVal.leaf (.str "W1"), RowVal.leaf (.str "R1"), "report")]
          dims := [("report", [[("id", "R1"), ("name", "Sales")]])] } ∧
    decide ((RowVal.leaf (.str "U2"), RowVal.leaf (.str "R1"),
        RowVal.leaf (.str "Viewer"), ("report" : String)) ∈
      ([(RowVal.leaf (.str "U1"), RowVal.leaf (.str "W1"),
         RowVal.leaf (.str "Member"), "workspace")] : List AccessRow)) = false := by
  refine ⟨rfl, by decide⟩

end VisionBI
